import Mathlib

/-
Verification development for the directory organizer of this repository
(`file_organizer.py`).  The Python function `file_organizer` is shallowly
embedded: the filesystem visible to the function is an explicit state, and
the body of the function is a pure state-passing program on it.  Python
exceptions are modelled with `Except`; the two `except` clauses of the
source become the error branches of `file_organizer` below.
-/

namespace FileOrg


/-! ### Path name helpers (Python `pathlib` semantics)

`PurePath.suffix` and `PurePath.stem` split a file name at the last dot,
provided that dot is neither the first nor the last character of the name;
otherwise the suffix is empty and the stem is the whole name. -/

/-- Index of the last occurrence of a dot in a character list (accumulator
form), mirroring Python `str.rfind`. -/
def lastDotIndex : List Char → Nat → Option Nat → Option Nat
  | [], _, acc => acc
  | c :: cs, i, acc => lastDotIndex cs (i + 1) (if c = '.' then some i else acc)

/-- Split a file name into `(stem, suffix)` following Python `pathlib`:
the suffix starts at the last dot when `0 < i < len(name) - 1`, else it is
empty and the stem is the whole name. -/
def pySplit (name : String) : String × String :=
  let cs := name.data
  match lastDotIndex cs 0 none with
  | some i =>
      if 0 < i ∧ i < cs.length - 1 then (⟨cs.take i⟩, ⟨cs.drop i⟩)
      else (name, "")
  | none => (name, "")

/-- Python `PurePath.stem` of a bare file name. -/
def pyStem (name : String) : String := (pySplit name).1

/-- Python `PurePath.suffix` of a bare file name. -/
def pySuffix (name : String) : String := (pySplit name).2

/-! ### The category table (`file_categories` in the source) -/

/-- The static extension table of `file_organizer.py`, as an ordered list
of category / extension-list pairs (Python dictionaries iterate in
insertion order). -/
def file_categories : List (String × List String) := [
  ("Word Documents", [".doc", ".docx", ".rtf", ".odt"]),
  ("Excel Documents", [".xls", ".xlsx", ".csv", ".ods"]),
  ("PowerPoint Documents", [".ppt", ".pptx", ".odp"]),
  ("PDF Documents", [".pdf"]),
  ("Images", [".jpg", ".jpeg", ".png", ".gif", ".bmp", ".tiff", ".svg", ".webp"]),
  ("Videos", [".mp4", ".avi", ".mkv", ".mov", ".wmv", ".flv", ".webm"]),
  ("Audio", [".mp3", ".wav", ".flac", ".aac", ".ogg", ".wma"]),
  ("Archives", [".zip", ".rar", ".7z", ".tar", ".gz"]),
  ("Text Files", [".txt", ".md", ".log"]),
  ("Code Files", [".py", ".js", ".html", ".css", ".java", ".cpp", ".c", ".php"]),
  ("Executables", [".exe", ".msi", ".bat", ".cmd", ".sh", ".run", ".deb", ".rpm", ".appimage"])
]

/-- Python `str.lower()`: lower-case every character (the extensions in
the table are ASCII, for which this is exact). -/
def pyLower (s : String) : String := ⟨s.data.map Char.toLower⟩

/-- The category assigned to a file name: lower-cased suffix, first
category in table order whose extension list holds it, else the literal
fallback `Other Files`.  This is the loop over `file_categories.items()`
followed by the `if not target_folder` default in the source. -/
def targetFolderOf (name : String) : String :=
  let file_extension := pyLower (pySuffix name)
  match file_categories.find? (fun p => p.2.contains file_extension) with
  | some p => p.1
  | none => "Other Files"

/-! ### Decimal rendering of the collision counter

The source renders the counter with an f-string (`f"{...}_{counter}{...}"`),
i.e. in decimal.  We define decimal rendering explicitly so that its
injectivity can be proved. -/

/-- The character for one decimal digit. -/
def digitChar (d : Nat) : Char :=
  match d with
  | 0 => '0' | 1 => '1' | 2 => '2' | 3 => '3' | 4 => '4'
  | 5 => '5' | 6 => '6' | 7 => '7' | 8 => '8' | _ => '9'

/-- Numeric value of a decimal digit character. -/
def digitVal (c : Char) : Nat := c.toNat - 48

/-- Decimal digit list on fuel (the fuel only bounds recursion depth;
`n + 1` units always suffice). -/
def natDigitsAux : Nat → Nat → List Char
  | 0, _ => []
  | fuel + 1, n =>
      if n < 10 then [digitChar n]
      else natDigitsAux fuel (n / 10) ++ [digitChar (n % 10)]

/-- Decimal digit list of a natural number, most significant first. -/
def natDigits (n : Nat) : List Char := natDigitsAux (n + 1) n

/-- Decimal string of a natural number (the rendering used for the
collision counter). -/
def natToString (n : Nat) : String := ⟨natDigits n⟩

/-! ### Filesystem model

An `Entry` is a direct child of the source directory: a regular file, or a
subdirectory together with the names of the files inside it.  The `fault`
field is the error oracle for the one effectful call, `shutil.move`: it
records whether the operating system would fail that file's move and how. -/

/-- A way in which the operating system can fail a move. -/
inductive FaultKind
  | permission
  | other (msg : String)

deriving DecidableEq, Repr

/-- A direct child of the source directory. -/
structure Entry where
  name : String
  isFile : Bool
  contents : List String := []
  fault : Option FaultKind := none

deriving DecidableEq, Repr

/-- A Python exception reaching the `except` clauses of the source. -/
inductive PyExc
  | permissionError
  | otherError (msg : String)

deriving DecidableEq, Repr

/-- One element of the `file_moves` list of the source. -/
structure MoveRec where
  file : String
  fromDir : String
  toCat : String
  new_name : String

deriving DecidableEq, Repr

/-- The mutable state of one invocation: the directory tree plus the
tracking variables `organized_count`, `created_folders`, `file_moves`. -/
structure RunState where
  children : List Entry
  organized_count : Nat
  created_folders : List String
  file_moves : List MoveRec

deriving DecidableEq, Repr

/-- The filesystem as seen by one invocation: whether the source path
exists, whether it is a directory, and its direct children. -/
structure FS where
  sourceExists : Bool
  sourceIsDir : Bool
  children : List Entry

deriving DecidableEq, Repr

deriving instance DecidableEq for Except

/-- First child with the given name (path resolution at the root level). -/
def findChild (l : List Entry) (n : String) : Option Entry :=
  l.find? (fun e => e.name == n)

/-- Python `Path.exists()` for the path `source/<n>`. -/
def pathExistsIn (l : List Entry) (n : String) : Bool :=
  (findChild l n).isSome

/-- Names for which Python `Path.exists()` is true under `source/<c>/`:
the contents of the child `c` when it is a directory, nothing otherwise
(a path through a regular file never exists). -/
def dirContents (l : List Entry) (c : String) : List String :=
  match findChild l c with
  | some e => if e.isFile then [] else e.contents
  | none => []

/-! ### Collision resolution (the `while target_file_path.exists()` loop) -/

/-- The candidate name tried at counter value `j`:
`f"{original_name}_{counter}{extension}"`. -/
def candidateName (stem ext : String) (j : Nat) : String :=
  stem ++ "_" ++ natToString j ++ ext

/-- The source's `while` loop over candidate names, unrolled on fuel.
`resolveLoop occupied stem ext counter fuel` returns the first free
candidate at counter values `counter, counter+1, …`; when the fuel runs
out it returns the current candidate unchecked.  Fuel `occupied.length`
is always enough (proved below), so the unchecked branch is dead. -/
def resolveLoop (occupied : List String) (stem ext : String) : Nat → Nat → String
  | counter, 0 => candidateName stem ext counter
  | counter, fuel + 1 =>
      if candidateName stem ext counter ∈ occupied then
        resolveLoop occupied stem ext (counter + 1) fuel
      else candidateName stem ext counter

/-- Final destination name of a move: the original name if free, else the
first free numbered candidate, counter starting at 1. -/
def resolveTarget (occupied : List String) (name stem ext : String) : String :=
  if name ∈ occupied then resolveLoop occupied stem ext 1 occupied.length
  else name

/-! ### State updates of one iteration -/

/-- Python `set.add`: append the element when it is not yet present. -/
def insertNew (l : List String) (x : String) : List String :=
  if x ∈ l then l else l ++ [x]

/-- Effect of `shutil.move` on the root listing: the moved regular file
disappears from the source directory. -/
def removeRootFile : List Entry → String → List Entry
  | [], _ => []
  | e :: es, n => if e.isFile = true ∧ e.name = n then es else e :: removeRootFile es n

/-- Effect of `shutil.move` on the destination folder: the file appears
under its final name in the first child with the folder's name. -/
def addToDir : List Entry → String → String → List Entry
  | [], _, _ => []
  | e :: es, c, fn =>
      if e.name = c then { e with contents := e.contents ++ [fn] } :: es
      else e :: addToDir es c fn

/-- Message text of a `NotADirectoryError` from `shutil.move` (destination
folder path occupied by a regular file). -/
def notADirectoryMsg : String := "Not a directory"

/-- Message text of a `FileNotFoundError` from `shutil.move`. -/
def fileNotFoundMsg : String := "No such file or directory"

/-- Create-on-demand of the category folder: the `if not target_dir.exists()`
branch with its `mkdir`. -/
def mkdirChildren (children : List Entry) (c : String) : List Entry :=
  if pathExistsIn children c then children
  else children ++ [{ name := c, isFile := false }]

/-- The `created_folders.add` that accompanies the `mkdir`. -/
def mkdirCreated (children : List Entry) (c : String) (created : List String) : List String :=
  if pathExistsIn children c then created else insertNew created c

/-- The final name the collision loop settles on for file `f` moving into
folder `c` of `children1`. -/
def finalNameFor (children1 : List Entry) (f : Entry) (c : String) : String :=
  resolveTarget (dirContents children1 c) f.name (pyStem f.name) (pySuffix f.name)

/-- One iteration of the `for file_path in files` loop of the source:
categorize, create the folder on demand, resolve the collision, move.
An error value carries the exception and the state at the raise. -/
def stepFile (st : RunState) (f : Entry) : Except (PyExc × RunState) RunState :=
  let target_folder := targetFolderOf f.name
  let children1 := mkdirChildren st.children target_folder
  let st1 : RunState :=
    { st with
      children := children1,
      created_folders := mkdirCreated st.children target_folder st.created_folders }
  let new_name := finalNameFor children1 f target_folder
  match f.fault with
  | some FaultKind.permission => .error (.permissionError, st1)
  | some (FaultKind.other msg) => .error (.otherError msg, st1)
  | none =>
      match findChild children1 target_folder with
      | some e =>
          if e.isFile then .error (.otherError notADirectoryMsg, st1)
          else
            .ok { st1 with
                  children := addToDir (removeRootFile children1 f.name) target_folder new_name,
                  organized_count := st1.organized_count + 1,
                  file_moves := st1.file_moves ++
                    [{ file := f.name, fromDir := "Root Directory",
                       toCat := target_folder, new_name := new_name }] }
      | none => .error (.otherError fileNotFoundMsg, st1)

/-- The whole `for` loop: process the snapshot list in order, stopping at
the first exception. -/
def runFiles : RunState → List Entry → Except (PyExc × RunState) RunState
  | st, [] => .ok st
  | st, f :: fl =>
      match stepFile st f with
      | .error e => .error e
      | .ok st1 => runFiles st1 fl

/-! ### Summary rendering -/

/-- Sort a list of strings (Python `sorted`). -/
def sortStrings (l : List String) : List String :=
  l.mergeSort (fun a b => decide (a ≤ b))

/-- One line of the CHANGES MADE section. -/
def changeLine (m : MoveRec) : String :=
  if m.file ≠ m.new_name then
    "â€¢ " ++ m.file ++ " â†’ " ++ m.toCat ++ "/" ++ m.new_name ++ " (renamed)\n"
  else
    "â€¢ " ++ m.file ++ " â†’ " ++ m.toCat ++ "/\n"

/-- One line of the AFTER section: a created folder and how many moves
ended in it. -/
def folderLine (file_moves : List MoveRec) (folder : String) : String :=
  "â€¢ " ++ folder ++ ": "
    ++ toString (file_moves.filter (fun m => m.toCat == folder)).length
    ++ " files\n"

/-- The success summary string assembled by the source. -/
def renderSummary (source_directory : String) (before_state : List String)
    (created_folders : List String) (file_moves : List MoveRec) : String :=
  "âœ… File organization complete!\n\n"
  ++ "ğŸ“‹ BEFORE: " ++ toString before_state.length ++ " files in root directory\n"
  ++ "Files: " ++ String.intercalate ", " (before_state.take 5)
  ++ (if before_state.length > 5 then "..." else "") ++ "\n\n"
  ++ "ğŸ”„ CHANGES MADE:\n"
  ++ String.join (file_moves.map changeLine)
  ++ "\nğŸ“‚ AFTER: Created " ++ toString created_folders.length ++ " folders\n"
  ++ String.join ((sortStrings created_folders).map (folderLine file_moves))
  ++ "\nğŸ“ Location: " ++ source_directory

/-! ### Error and validation messages -/

/-- A single-quote character, used around paths in the messages. -/
def sq : String := "\x27"

/-- Message for a missing source path. -/
def doesNotExistMsg (d : String) : String :=
  "Error: Directory " ++ sq ++ d ++ sq ++ " does not exist"

/-- Message for a source path that is not a directory. -/
def notDirectoryMsg (d : String) : String :=
  "Error: " ++ sq ++ d ++ sq ++ " is not a directory"

/-- Message for a directory holding no regular file. -/
def noFilesFoundMsg (d : String) : String :=
  "No files found in " ++ sq ++ d ++ sq

/-- Message returned by the `except PermissionError` clause. -/
def permissionDeniedMsg : String :=
  "âŒ Error: Permission denied. Run as administrator or check file permissions."

/-- Message returned by the catch-all `except Exception` clause. -/
def genericErrorMsg (m : String) : String :=
  "âŒ Error organizing files: " ++ m

/-! ### The organizer itself -/

/-- Initial tracking state of one invocation. -/
def initState (fs : FS) : RunState :=
  { children := fs.children, organized_count := 0,
    created_folders := [], file_moves := [] }

/-- The regular files directly in the source directory (the `files`
snapshot of the source). -/
def rootFiles (fs : FS) : List Entry :=
  fs.children.filter (fun e => e.isFile)

/-- Names of the regular files directly in the source directory. -/
def rootFileNames (l : List Entry) : List String :=
  (l.filter (fun e => e.isFile)).map (fun e => e.name)

/-- The embedded `file_organizer`: validation, snapshot, per-file loop,
summary, with both `except` clauses turning exceptions into strings.
Returns the reply string and the filesystem after the call. -/
def file_organizer (source_directory : String) (organize_by_type : Bool)
    (fs : FS) : String × FS :=
  if fs.sourceExists = false then (doesNotExistMsg source_directory, fs)
  else if fs.sourceIsDir = false then (notDirectoryMsg source_directory, fs)
  else
    let files := fs.children.filter (fun e => e.isFile)
    if files.isEmpty then (noFilesFoundMsg source_directory, fs)
    else
      let before_state := files.map (fun f => f.name)
      match runFiles (initState fs) files with
      | .ok st =>
          (renderSummary source_directory before_state st.created_folders st.file_moves,
           { fs with children := st.children })
      | .error (.permissionError, st) =>
          (permissionDeniedMsg, { fs with children := st.children })
      | .error (.otherError m, st) =>
          (genericErrorMsg m, { fs with children := st.children })

/-- Read a decimal digit list back as a number. -/
def denoteDigits (l : List Char) : Nat :=
  l.foldl (fun a c => a * 10 + digitVal c) 0

/-- The full candidate sequence of one move: the original name first, then
the numbered candidates. -/
def moveCandidate (name stem ext : String) : Nat → String
  | 0 => name
  | j + 1 => candidateName stem ext (j + 1)

/-! ### Inversion of one loop iteration -/

/-- Final name chosen for `f` when processed from state `st`. -/
def stepNewName (st : RunState) (f : Entry) : String :=
  finalNameFor (mkdirChildren st.children (targetFolderOf f.name)) f (targetFolderOf f.name)

/-! ### Recorded moves stay in place -/

/-- Every recorded move's file is present, under its final name, in the
folder the record names. -/
def MovesPlaced (st : RunState) : Prop :=
  ∀ m ∈ st.file_moves, m.new_name ∈ dirContents st.children m.toCat

/-! ### Created folders are new, and counted once -/

/-- A directory named `c` is among the children. -/
def IsDirIn (l : List Entry) (c : String) : Prop :=
  ∃ e, findChild l c = some e ∧ e.isFile = false

/-- Invariant relating the running state to the initial children `l0`:
the recorded created folders are duplicate-free, none of them was a
directory initially, and every initial directory is still a directory. -/
def CreatedInv (l0 : List Entry) (st : RunState) : Prop :=
  st.created_folders.Nodup ∧
  (∀ c ∈ st.created_folders, ¬IsDirIn l0 c) ∧
  (∀ c, IsDirIn l0 c → IsDirIn st.children c)

/-! ### The specification's Category Table (for the refinement claim C1) -/

/-- The Category Table exactly as printed in section 6 of the
specification, to be compared with the source's `file_categories`. -/
def specCategoryTable : List (String × List String) := [
  ("Word Documents", [".doc", ".docx", ".rtf", ".odt"]),
  ("Excel Documents", [".xls", ".xlsx", ".csv", ".ods"]),
  ("PowerPoint Documents", [".ppt", ".pptx", ".odp"]),
  ("PDF Documents", [".pdf"]),
  ("Images", [".jpg", ".jpeg", ".png", ".gif", ".bmp", ".tiff", ".svg", ".webp"]),
  ("Videos", [".mp4", ".avi", ".mkv", ".mov", ".wmv", ".flv", ".webm"]),
  ("Audio", [".mp3", ".wav", ".flac", ".aac", ".ogg", ".wma"]),
  ("Archives", [".zip", ".rar", ".7z", ".tar", ".gz"]),
  ("Text Files", [".txt", ".md", ".log"]),
  ("Code Files", [".py", ".js", ".html", ".css", ".java", ".cpp", ".c", ".php"]),
  ("Executables", [".exe", ".msi", ".bat", ".cmd", ".sh", ".run", ".deb", ".rpm", ".appimage"])
]

/-- Lookup following the specification's words: iterate categories in
table-declaration order, return the first whose extension set holds the
extension, else the literal fallback. -/
def specLookup (ext : String) : String :=
  match specCategoryTable.find? (fun p => p.2.contains ext) with
  | some p => p.1
  | none => "Other Files"

/-- Each folder recorded as created is a directory whose listing is
exactly the names moved into it by this run, in order. -/
def CreatedContents (st : RunState) : Prop :=
  ∀ c ∈ st.created_folders, ∃ e, findChild st.children c = some e ∧ e.isFile = false ∧
    e.contents = (st.file_moves.filter (fun m => m.toCat == c)).map (fun m => m.new_name)

/-! ### Proof development -/

/-! ### Decimal rendering is injective -/

/-- Numeric value of the rendered digit matches the digit. -/
theorem digitVal_digitChar {d : Nat} (h : d < 10) : digitVal (digitChar d) = d := by
  interval_cases d <;> rfl

theorem foldl_denote_append (l : List Char) (c : Char) (a : Nat) :
    List.foldl (fun a c => a * 10 + digitVal c) a (l ++ [c])
      = List.foldl (fun a c => a * 10 + digitVal c) a l * 10 + digitVal c := by
  rw [List.foldl_append]
  rfl

theorem denote_natDigitsAux :
    ∀ (fuel n : Nat), n < fuel → denoteDigits (natDigitsAux fuel n) = n := by
  intro fuel
  induction fuel with
  | zero => intro n h; omega
  | succ fuel ih =>
    intro n h
    rw [natDigitsAux]
    split
    next hlt =>
      simp [denoteDigits, digitVal_digitChar hlt]
    next hlt =>
      have hd : n / 10 < fuel := by
        have hds : n / 10 < n := Nat.div_lt_self (by omega) (by omega)
        omega
      rw [denoteDigits, foldl_denote_append]
      have hrec := ih (n / 10) hd
      rw [denoteDigits] at hrec
      rw [hrec, digitVal_digitChar (Nat.mod_lt n (by omega))]
      omega

theorem denote_natDigits (n : Nat) : denoteDigits (natDigits n) = n :=
  denote_natDigitsAux (n + 1) n (by omega)

theorem natToString_injective : Function.Injective natToString := by
  intro a b h
  have hdata : natDigits a = natDigits b := congrArg String.data h
  have hval := congrArg denoteDigits hdata
  rwa [denote_natDigits, denote_natDigits] at hval

theorem candidateName_injective (stem ext : String) :
    Function.Injective (candidateName stem ext) := by
  intro a b h
  apply natToString_injective
  have hd := congrArg String.data h
  simp only [candidateName, String.data_append] at hd
  exact String.ext (List.append_cancel_left (List.append_cancel_right hd))

/-! ### The collision loop always finds a free name -/

/-- Pigeonhole: among `occupied.length + 1` consecutive candidate names at
least one is not occupied. -/
theorem exists_free_candidate (occupied : List String) (stem ext : String)
    (counter : Nat) :
    ∃ j, counter ≤ j ∧ j ≤ counter + occupied.length ∧
      candidateName stem ext j ∉ occupied := by
  by_contra hall
  push_neg at hall
  have hsub : (List.range' counter (occupied.length + 1)).map (candidateName stem ext)
      ⊆ occupied := by
    intro x hx
    obtain ⟨j, hj, rfl⟩ := List.mem_map.mp hx
    obtain ⟨i, hi, hx⟩ := List.mem_range'.mp hj
    have hio : counter + 1 * i = counter + i := by omega
    rw [hx, hio]
    exact hall (counter + i) (by omega) (by omega)
  have hnd : ((List.range' counter (occupied.length + 1)).map
      (candidateName stem ext)).Nodup :=
    (List.nodup_range' counter (occupied.length + 1)).map (candidateName_injective stem ext)
  have hle := (hnd.subperm hsub).length_le
  simp only [List.length_map, List.length_range'] at hle
  omega

/-- The loop returns the first free candidate at or after `counter`,
provided some candidate within the fuel is free. -/
theorem resolveLoop_spec (occupied : List String) (stem ext : String) :
    ∀ fuel counter,
      (∃ j, counter ≤ j ∧ j ≤ counter + fuel ∧ candidateName stem ext j ∉ occupied) →
      ∃ j, counter ≤ j ∧
        resolveLoop occupied stem ext counter fuel = candidateName stem ext j ∧
        candidateName stem ext j ∉ occupied ∧
        ∀ k, counter ≤ k → k < j → candidateName stem ext k ∈ occupied := by
  intro fuel
  induction fuel with
  | zero =>
    intro counter hex
    obtain ⟨j, h1, h2, h3⟩ := hex
    have hj : j = counter := by omega
    subst hj
    exact ⟨j, le_refl _, rfl, h3, fun k hk1 hk2 => absurd hk2 (by omega)⟩
  | succ fuel ih =>
    intro counter hex
    rw [resolveLoop]
    split
    next hin =>
      obtain ⟨j, h1, h2, h3⟩ := hex
      have hne : j ≠ counter := fun e => h3 (e ▸ hin)
      obtain ⟨j', hj1, hj2, hj3, hj4⟩ := ih (counter + 1) ⟨j, by omega, by omega, h3⟩
      refine ⟨j', by omega, hj2, hj3, fun k hk1 hk2 => ?_⟩
      by_cases hkc : k = counter
      · exact hkc ▸ hin
      · exact hj4 k (by omega) hk2
    next hnin =>
      exact ⟨counter, le_refl _, rfl, hnin, fun k hk1 hk2 => absurd hk2 (by omega)⟩

/-- The resolved target name is never an occupied name: the move never
overwrites an existing file. -/
theorem resolveTarget_not_mem (occupied : List String) (name stem ext : String) :
    resolveTarget occupied name stem ext ∉ occupied := by
  rw [resolveTarget]
  split
  next hin =>
    obtain ⟨j, h1, h2, h3⟩ := exists_free_candidate occupied stem ext 1
    obtain ⟨j', _, heq, hfree, _⟩ :=
      resolveLoop_spec occupied stem ext occupied.length 1 ⟨j, h1, h2, h3⟩
    rw [heq]
    exact hfree
  next hnin => exact hnin

/-- The resolved target is the first candidate in sequence order that is
not occupied. -/
theorem resolveTarget_first_free (occupied : List String) (name stem ext : String) :
    ∃ j, resolveTarget occupied name stem ext = moveCandidate name stem ext j ∧
      moveCandidate name stem ext j ∉ occupied ∧
      ∀ k, k < j → moveCandidate name stem ext k ∈ occupied := by
  rw [resolveTarget]
  split
  next hin =>
    obtain ⟨j, h1, h2, h3⟩ := exists_free_candidate occupied stem ext 1
    obtain ⟨j', hj1, heq, hfree, hmin⟩ :=
      resolveLoop_spec occupied stem ext occupied.length 1 ⟨j, h1, h2, h3⟩
    refine ⟨j', ?_, ?_, ?_⟩
    · have : j' = (j' - 1) + 1 := by omega
      rw [heq, this]
      rfl
    · have : j' = (j' - 1) + 1 := by omega
      rw [this] at hfree ⊢
      exact hfree
    · intro k hk
      match k with
      | 0 => exact hin
      | k + 1 => exact hmin (k + 1) (by omega) hk
  next hnin =>
    exact ⟨0, rfl, hnin, fun k hk => absurd hk (by omega)⟩

/-! ### Structural lemmas about the state updates -/

theorem findChild_cons (a : Entry) (as : List Entry) (c : String) :
    findChild (a :: as) c = if a.name = c then some a else findChild as c := by
  by_cases h : a.name = c
  · rw [if_pos h]
    exact List.find?_cons_of_pos _ (by simpa using h)
  · rw [if_neg h]
    exact List.find?_cons_of_neg _ (by simpa using h)

theorem removeRootFile_cons (a : Entry) (as : List Entry) (n : String) :
    removeRootFile (a :: as) n
      = if a.isFile = true ∧ a.name = n then as else a :: removeRootFile as n := rfl

theorem addToDir_cons (a : Entry) (as : List Entry) (c fn : String) :
    addToDir (a :: as) c fn
      = if a.name = c then { a with contents := a.contents ++ [fn] } :: as
        else a :: addToDir as c fn := rfl

theorem findChild_append {l : List Entry} {c : String} {e : Entry}
    (h : findChild l c = some e) (l2 : List Entry) :
    findChild (l ++ l2) c = some e := by
  induction l with
  | nil => simp [findChild] at h
  | cons a as ih =>
    by_cases hp : a.name = c
    · rw [List.cons_append, findChild_cons, if_pos hp]
      rw [findChild_cons, if_pos hp] at h
      exact h
    · rw [List.cons_append, findChild_cons, if_neg hp]
      rw [findChild_cons, if_neg hp] at h
      exact ih h

theorem findChild_removeRootFile {l : List Entry} {c : String} {e : Entry}
    (h : findChild l c = some e) (he : e.isFile = false) (n : String) :
    findChild (removeRootFile l n) c = some e := by
  induction l with
  | nil => simp [findChild] at h
  | cons a as ih =>
    rw [removeRootFile_cons]
    by_cases hp : a.name = c
    · rw [findChild_cons, if_pos hp] at h
      have ha : a = e := Option.some.inj h
      subst ha
      rw [if_neg (by simp [he])]
      rw [findChild_cons, if_pos hp]
    · rw [findChild_cons, if_neg hp] at h
      by_cases hrm : a.isFile = true ∧ a.name = n
      · rw [if_pos hrm]
        exact h
      · rw [if_neg hrm, findChild_cons, if_neg hp]
        exact ih h

theorem findChild_addToDir_self (l : List Entry) (c fn : String) :
    findChild (addToDir l c fn) c
      = Option.map (fun e => { e with contents := e.contents ++ [fn] }) (findChild l c) := by
  induction l with
  | nil => simp [findChild, addToDir]
  | cons a as ih =>
    rw [addToDir_cons]
    by_cases hp : a.name = c
    · rw [if_pos hp, findChild_cons, findChild_cons]
      rw [if_pos (show ({ a with contents := a.contents ++ [fn] } : Entry).name = c from hp),
          if_pos hp]
      rfl
    · rw [if_neg hp, findChild_cons, findChild_cons]
      rw [if_neg (show ¬({ a with contents := a.contents ++ [fn] } : Entry).name = c from hp),
          if_neg hp]
      exact ih

theorem findChild_addToDir_ne (l : List Entry) {c d : String} (fn : String)
    (hne : d ≠ c) :
    findChild (addToDir l c fn) d = findChild l d := by
  induction l with
  | nil => simp [addToDir]
  | cons a as ih =>
    rw [addToDir_cons]
    by_cases hp : a.name = c
    · have had : ¬a.name = d := fun h => hne (h ▸ hp)
      rw [if_pos hp, findChild_cons, findChild_cons]
      rw [if_neg (show ¬({ a with contents := a.contents ++ [fn] } : Entry).name = d from had),
          if_neg had]
    · rw [if_neg hp, findChild_cons, findChild_cons]
      by_cases had : a.name = d
      · rw [if_pos had, if_pos had]
      · rw [if_neg had, if_neg had]
        exact ih

/-! ### Root file names under the state updates -/

theorem rootFileNames_cons (a : Entry) (as : List Entry) :
    rootFileNames (a :: as)
      = if a.isFile = true then a.name :: rootFileNames as else rootFileNames as := by
  rw [rootFileNames, List.filter_cons]
  by_cases h : a.isFile = true
  · simp [h, rootFileNames]
  · simp [h, rootFileNames]

theorem rootFileNames_append_dir (l : List Entry) (c : String) :
    rootFileNames (l ++ [{ name := c, isFile := false }]) = rootFileNames l := by
  simp [rootFileNames, List.filter_append]

theorem rootFileNames_mkdirChildren (l : List Entry) (c : String) :
    rootFileNames (mkdirChildren l c) = rootFileNames l := by
  rw [mkdirChildren]
  split
  · rfl
  · exact rootFileNames_append_dir l c

theorem rootFileNames_addToDir (l : List Entry) (c fn : String) :
    rootFileNames (addToDir l c fn) = rootFileNames l := by
  induction l with
  | nil => rfl
  | cons a as ih =>
    rw [addToDir_cons]
    by_cases hp : a.name = c
    · rw [if_pos hp, rootFileNames_cons, rootFileNames_cons]
    · rw [if_neg hp, rootFileNames_cons, rootFileNames_cons, ih]

theorem rootFileNames_removeRootFile (l : List Entry) (n : String) :
    rootFileNames (removeRootFile l n) = (rootFileNames l).erase n := by
  induction l with
  | nil => rfl
  | cons a as ih =>
    rw [removeRootFile_cons]
    by_cases hrm : a.isFile = true ∧ a.name = n
    · rw [if_pos hrm, rootFileNames_cons, if_pos hrm.1, List.erase_cons,
          if_pos (by simp [hrm.2])]
    · rw [if_neg hrm, rootFileNames_cons, rootFileNames_cons]
      by_cases hf : a.isFile = true
      · have hn : a.name ≠ n := fun h => hrm ⟨hf, h⟩
        rw [if_pos hf, if_pos hf, List.erase_cons, if_neg (by simp [hn]), ih]
      · rw [if_neg hf, if_neg hf, ih]

/-! ### Directory contents under the state updates -/

theorem dirContents_some {l : List Entry} {c : String} {e : Entry}
    (h : findChild l c = some e) :
    dirContents l c = if e.isFile = true then [] else e.contents := by
  unfold dirContents
  rw [h]

theorem dirContents_none {l : List Entry} {c : String}
    (h : findChild l c = none) :
    dirContents l c = [] := by
  unfold dirContents
  rw [h]

theorem mem_dirContents_isDir {l : List Entry} {d m : String}
    (h : m ∈ dirContents l d) :
    ∃ e, findChild l d = some e ∧ e.isFile = false ∧ m ∈ e.contents := by
  cases hf : findChild l d with
  | none =>
    rw [dirContents_none hf] at h
    cases h
  | some e =>
    rw [dirContents_some hf] at h
    by_cases hb : e.isFile = true
    · rw [if_pos hb] at h
      cases h
    · rw [if_neg hb] at h
      exact ⟨e, rfl, by simpa using hb, h⟩

theorem mem_dirContents_mkdir {l : List Entry} {d m : String}
    (h : m ∈ dirContents l d) (c : String) :
    m ∈ dirContents (mkdirChildren l c) d := by
  obtain ⟨e, he, hf, hm⟩ := mem_dirContents_isDir h
  rw [mkdirChildren]
  split
  · exact h
  · rw [dirContents_some (findChild_append he _), if_neg (by simp [hf])]
    exact hm

theorem mem_dirContents_removeRootFile {l : List Entry} {d m : String}
    (h : m ∈ dirContents l d) (n : String) :
    m ∈ dirContents (removeRootFile l n) d := by
  obtain ⟨e, he, hf, hm⟩ := mem_dirContents_isDir h
  rw [dirContents_some (findChild_removeRootFile he hf n), if_neg (by simp [hf])]
  exact hm

theorem dirContents_addToDir_ne {l : List Entry} {c d : String} (fn : String)
    (hne : d ≠ c) :
    dirContents (addToDir l c fn) d = dirContents l d := by
  unfold dirContents
  rw [findChild_addToDir_ne l fn hne]

theorem mem_dirContents_addToDir {l : List Entry} {d m : String}
    (h : m ∈ dirContents l d) (c fn : String) :
    m ∈ dirContents (addToDir l c fn) d := by
  by_cases hdc : d = c
  · subst hdc
    obtain ⟨e, he, hf, hm⟩ := mem_dirContents_isDir h
    have hfc : findChild (addToDir l d fn) d
        = some { e with contents := e.contents ++ [fn] } := by
      rw [findChild_addToDir_self, he]
      rfl
    rw [dirContents_some hfc, if_neg (by simp [hf])]
    simp [hm]
  · rw [dirContents_addToDir_ne fn hdc]
    exact h

theorem self_mem_dirContents_addToDir {l : List Entry} {c : String} {e : Entry}
    (he : findChild l c = some e) (hf : e.isFile = false) (fn : String) :
    fn ∈ dirContents (addToDir l c fn) c := by
  have hfc : findChild (addToDir l c fn) c
      = some { e with contents := e.contents ++ [fn] } := by
    rw [findChild_addToDir_self, he]
    rfl
  rw [dirContents_some hfc, if_neg (by simp [hf])]
  simp

theorem stepFile_ok_inv {st : RunState} {f : Entry} {st' : RunState}
    (h : stepFile st f = .ok st') :
    f.fault = none ∧
    ∃ e, findChild (mkdirChildren st.children (targetFolderOf f.name))
          (targetFolderOf f.name) = some e ∧
      e.isFile = false ∧
      st'.children
        = addToDir (removeRootFile (mkdirChildren st.children (targetFolderOf f.name)) f.name)
            (targetFolderOf f.name) (stepNewName st f) ∧
      st'.created_folders = mkdirCreated st.children (targetFolderOf f.name) st.created_folders ∧
      st'.organized_count = st.organized_count + 1 ∧
      st'.file_moves = st.file_moves ++
        [{ file := f.name, fromDir := "Root Directory",
           toCat := targetFolderOf f.name, new_name := stepNewName st f }] := by
  cases hfau : f.fault with
  | some k => cases k <;> simp [stepFile, hfau] at h
  | none =>
    refine ⟨rfl, ?_⟩
    simp only [stepFile, hfau] at h
    cases hfc : findChild (mkdirChildren st.children (targetFolderOf f.name))
        (targetFolderOf f.name) with
    | none =>
      rw [hfc] at h
      exact Except.noConfusion h
    | some e =>
      rw [hfc] at h
      by_cases hef : e.isFile = true
      · simp [hef] at h
      · simp only [hef, if_false, Bool.false_eq_true] at h
        have hR := Except.ok.inj h
        refine ⟨e, rfl, by simpa using hef, ?_, ?_, ?_, ?_⟩ <;>
          (rw [← hR]; try rfl)

theorem stepFile_error_state {st : RunState} {f : Entry} {exc : PyExc} {st' : RunState}
    (h : stepFile st f = .error (exc, st')) :
    st'.children = mkdirChildren st.children (targetFolderOf f.name) ∧
    st'.created_folders = mkdirCreated st.children (targetFolderOf f.name) st.created_folders ∧
    st'.file_moves = st.file_moves := by
  cases hfau : f.fault with
  | some k =>
    cases k <;>
    · simp only [stepFile, hfau] at h
      have hp := Except.error.inj h
      have hst := congrArg Prod.snd hp
      simp only at hst
      rw [← hst]
      exact ⟨rfl, rfl, rfl⟩
  | none =>
    simp only [stepFile, hfau] at h
    cases hfc : findChild (mkdirChildren st.children (targetFolderOf f.name))
        (targetFolderOf f.name) with
    | none =>
      rw [hfc] at h
      have hp := Except.error.inj h
      have hst := congrArg Prod.snd hp
      simp only at hst
      rw [← hst]
      exact ⟨rfl, rfl, rfl⟩
    | some e =>
      rw [hfc] at h
      by_cases hef : e.isFile = true
      · simp only [hef, if_true] at h
        have hp := Except.error.inj h
        have hst := congrArg Prod.snd hp
        simp only at hst
        rw [← hst]
        exact ⟨rfl, rfl, rfl⟩
      · simp only [hef, if_false, Bool.false_eq_true] at h
        exact Except.noConfusion h

theorem stepFile_ok_rootFileNames {st : RunState} {f : Entry} {st' : RunState}
    (h : stepFile st f = .ok st') :
    rootFileNames st'.children = (rootFileNames st.children).erase f.name := by
  obtain ⟨-, e, -, -, hch, -, -, -⟩ := stepFile_ok_inv h
  rw [hch, rootFileNames_addToDir, rootFileNames_removeRootFile, rootFileNames_mkdirChildren]

theorem stepFile_error_rootFileNames {st : RunState} {f : Entry} {exc : PyExc}
    {st' : RunState} (h : stepFile st f = .error (exc, st')) :
    rootFileNames st'.children = rootFileNames st.children := by
  obtain ⟨hch, -, -⟩ := stepFile_error_state h
  rw [hch, rootFileNames_mkdirChildren]

theorem stepFile_ok_moves {st : RunState} {f : Entry} {st' : RunState}
    (h : stepFile st f = .ok st') :
    st'.file_moves = st.file_moves ++
      [{ file := f.name, fromDir := "Root Directory",
         toCat := targetFolderOf f.name, new_name := stepNewName st f }] := by
  obtain ⟨-, e, -, -, -, -, -, hm⟩ := stepFile_ok_inv h
  exact hm

theorem stepFile_ok_MovesPlaced {st : RunState} {f : Entry} {st' : RunState}
    (h : stepFile st f = .ok st') (hmp : MovesPlaced st) : MovesPlaced st' := by
  obtain ⟨-, e, hfc, hef, hch, -, -, hm⟩ := stepFile_ok_inv h
  intro m hmem
  rw [hm] at hmem
  rw [hch]
  rcases List.mem_append.mp hmem with hold | hnew
  · exact mem_dirContents_addToDir
      (mem_dirContents_removeRootFile (mem_dirContents_mkdir (hmp m hold) _) _) _ _
  · obtain rfl := List.mem_singleton.mp hnew
    exact self_mem_dirContents_addToDir
      (findChild_removeRootFile hfc hef f.name) hef _

theorem stepFile_error_MovesPlaced {st : RunState} {f : Entry} {exc : PyExc}
    {st' : RunState} (h : stepFile st f = .error (exc, st'))
    (hmp : MovesPlaced st) : MovesPlaced st' := by
  obtain ⟨hch, -, hm⟩ := stepFile_error_state h
  intro m hmem
  rw [hm] at hmem
  rw [hch]
  exact mem_dirContents_mkdir (hmp m hmem) _

/-! ### Loop-level lemmas -/

theorem runFiles_ok_rootFileNames {fl : List Entry} :
    ∀ {st st' : RunState}, runFiles st fl = .ok st' →
    rootFileNames st'.children
      = fl.foldl (fun ns f => ns.erase f.name) (rootFileNames st.children) := by
  induction fl with
  | nil =>
    intro st st' h
    simp only [runFiles] at h
    have := Except.ok.inj h
    rw [← this]
    rfl
  | cons f fl ih =>
    intro st st' h
    cases hs : stepFile st f with
    | error e =>
      simp only [runFiles, hs] at h
      exact Except.noConfusion h
    | ok st1 =>
      simp only [runFiles, hs] at h
      simp only [List.foldl_cons]
      rw [ih h, stepFile_ok_rootFileNames hs]

theorem runFiles_ok_moveFiles {fl : List Entry} :
    ∀ {st st' : RunState}, runFiles st fl = .ok st' →
    st'.file_moves.map (fun m => m.file)
      = st.file_moves.map (fun m => m.file) ++ fl.map (fun f => f.name) := by
  induction fl with
  | nil =>
    intro st st' h
    simp only [runFiles] at h
    have := Except.ok.inj h
    rw [← this]
    simp
  | cons f fl ih =>
    intro st st' h
    cases hs : stepFile st f with
    | error e =>
      simp only [runFiles, hs] at h
      exact Except.noConfusion h
    | ok st1 =>
      simp only [runFiles, hs] at h
      rw [ih h, stepFile_ok_moves hs]
      simp

theorem runFiles_error_decomp {fl : List Entry} :
    ∀ {st : RunState} {exc : PyExc} {st' : RunState},
    runFiles st fl = .error (exc, st') →
    ∃ done f rest stb, fl = done ++ f :: rest ∧
      runFiles st done = .ok stb ∧ stepFile stb f = .error (exc, st') := by
  induction fl with
  | nil =>
    intro st exc st' h
    simp only [runFiles] at h
    exact Except.noConfusion h
  | cons f fl ih =>
    intro st exc st' h
    cases hs : stepFile st f with
    | error e =>
      simp only [runFiles, hs] at h
      have he := Except.error.inj h
      subst he
      exact ⟨[], f, fl, st, rfl, rfl, hs⟩
    | ok st1 =>
      simp only [runFiles, hs] at h
      obtain ⟨done, g, rest, stb, hfl, hrun, hstep⟩ := ih h
      refine ⟨f :: done, g, rest, stb, by rw [hfl]; rfl, ?_, hstep⟩
      simp only [runFiles, hs]
      exact hrun

theorem runFiles_ok_MovesPlaced {fl : List Entry} :
    ∀ {st st' : RunState}, runFiles st fl = .ok st' →
    MovesPlaced st → MovesPlaced st' := by
  induction fl with
  | nil =>
    intro st st' h hmp
    simp only [runFiles] at h
    have := Except.ok.inj h
    rw [← this]
    exact hmp
  | cons f fl ih =>
    intro st st' h hmp
    cases hs : stepFile st f with
    | error e =>
      simp only [runFiles, hs] at h
      exact Except.noConfusion h
    | ok st1 =>
      simp only [runFiles, hs] at h
      exact ih h (stepFile_ok_MovesPlaced hs hmp)

theorem runFiles_error_MovesPlaced {fl : List Entry} :
    ∀ {st : RunState} {exc : PyExc} {st' : RunState},
    runFiles st fl = .error (exc, st') → MovesPlaced st → MovesPlaced st' := by
  induction fl with
  | nil =>
    intro st exc st' h hmp
    simp only [runFiles] at h
    exact Except.noConfusion h
  | cons f fl ih =>
    intro st exc st' h hmp
    cases hs : stepFile st f with
    | error e =>
      simp only [runFiles, hs] at h
      have he := Except.error.inj h
      exact stepFile_error_MovesPlaced (he ▸ hs) hmp
    | ok st1 =>
      simp only [runFiles, hs] at h
      exact ih h (stepFile_ok_MovesPlaced hs hmp)

/-- Erasing a duplicate-free prefix from the whole list leaves the rest. -/
theorem foldl_erase_front :
    ∀ (xs ys : List String), (xs ++ ys).Nodup →
    xs.foldl (fun ns n => ns.erase n) (xs ++ ys) = ys := by
  intro xs
  induction xs with
  | nil => intro ys _; rfl
  | cons x xs ih =>
    intro ys h
    simp only [List.foldl_cons, List.cons_append, List.erase_cons_head]
    exact ih ys (List.Nodup.of_cons h)

theorem isDirIn_mkdirChildren {l : List Entry} {c0 : String}
    (h : IsDirIn l c0) (c : String) : IsDirIn (mkdirChildren l c) c0 := by
  obtain ⟨e, he, hf⟩ := h
  rw [mkdirChildren]
  split
  · exact ⟨e, he, hf⟩
  · exact ⟨e, findChild_append he _, hf⟩

theorem isDirIn_removeRootFile {l : List Entry} {c0 : String}
    (h : IsDirIn l c0) (n : String) : IsDirIn (removeRootFile l n) c0 := by
  obtain ⟨e, he, hf⟩ := h
  exact ⟨e, findChild_removeRootFile he hf n, hf⟩

theorem isDirIn_addToDir {l : List Entry} {c0 : String}
    (h : IsDirIn l c0) (c fn : String) : IsDirIn (addToDir l c fn) c0 := by
  obtain ⟨e, he, hf⟩ := h
  by_cases hdc : c0 = c
  · subst hdc
    refine ⟨{ e with contents := e.contents ++ [fn] }, ?_, hf⟩
    rw [findChild_addToDir_self, he]
    rfl
  · exact ⟨e, by rw [findChild_addToDir_ne l fn hdc]; exact he, hf⟩

theorem not_isDirIn_of_not_exists {l : List Entry} {c : String}
    (h : pathExistsIn l c = false) : ¬IsDirIn l c := by
  rintro ⟨e, he, -⟩
  rw [pathExistsIn, he] at h
  simp at h

theorem insertNew_nodup {l : List String} (h : l.Nodup) (x : String) :
    (insertNew l x).Nodup := by
  rw [insertNew]
  split
  · exact h
  · next hx => simp [List.nodup_append, h, hx]

theorem mem_insertNew {l : List String} {x c : String} :
    c ∈ insertNew l x ↔ c ∈ l ∨ c = x := by
  rw [insertNew]
  split
  · next hx =>
    constructor
    · exact Or.inl
    · rintro (h | rfl)
      · exact h
      · exact hx
  · simp

theorem mkdirCreated_cases (children : List Entry) (c : String)
    (created : List String) :
    mkdirCreated children c created = created ∨
    (pathExistsIn children c = false ∧
      mkdirCreated children c created = insertNew created c) := by
  rw [mkdirCreated]
  split
  · exact Or.inl rfl
  · next hx => exact Or.inr ⟨by simpa using hx, rfl⟩

theorem CreatedInv_step_created {l0 : List Entry} {st : RunState}
    (hinv : CreatedInv l0 st) (c0 : String) :
    (mkdirCreated st.children c0 st.created_folders).Nodup ∧
    ∀ c ∈ mkdirCreated st.children c0 st.created_folders, ¬IsDirIn l0 c := by
  obtain ⟨hnd, hnew, hpers⟩ := hinv
  rcases mkdirCreated_cases st.children c0 st.created_folders with heq | ⟨hnex, heq⟩
  · rw [heq]
    exact ⟨hnd, hnew⟩
  · rw [heq]
    refine ⟨insertNew_nodup hnd c0, ?_⟩
    intro c hc
    rcases mem_insertNew.mp hc with hc | rfl
    · exact hnew c hc
    · exact fun hdir => not_isDirIn_of_not_exists hnex (hpers c hdir)

theorem stepFile_ok_CreatedInv {l0 : List Entry} {st : RunState} {f : Entry}
    {st' : RunState} (h : stepFile st f = .ok st')
    (hinv : CreatedInv l0 st) : CreatedInv l0 st' := by
  obtain ⟨-, e, hfc, hef, hch, hcr, -, -⟩ := stepFile_ok_inv h
  obtain ⟨h1, h2⟩ := CreatedInv_step_created hinv (targetFolderOf f.name)
  refine ⟨by rw [hcr]; exact h1, by rw [hcr]; exact h2, ?_⟩
  intro c hdir
  rw [hch]
  exact isDirIn_addToDir (isDirIn_removeRootFile
    (isDirIn_mkdirChildren (hinv.2.2 c hdir) _) _) _ _

theorem runFiles_ok_CreatedInv {fl : List Entry} :
    ∀ {l0 : List Entry} {st st' : RunState}, runFiles st fl = .ok st' →
    CreatedInv l0 st → CreatedInv l0 st' := by
  induction fl with
  | nil =>
    intro l0 st st' h hinv
    simp only [runFiles] at h
    have := Except.ok.inj h
    rw [← this]
    exact hinv
  | cons f fl ih =>
    intro l0 st st' h hinv
    cases hs : stepFile st f with
    | error e =>
      simp only [runFiles, hs] at h
      exact Except.noConfusion h
    | ok st1 =>
      simp only [runFiles, hs] at h
      exact ih h (stepFile_ok_CreatedInv hs hinv)

/-- Fold over entries is the fold over their names. -/
theorem foldl_erase_entries (fl : List Entry) (X : List String) :
    fl.foldl (fun ns f => ns.erase f.name) X
      = (fl.map (fun e => e.name)).foldl (fun ns n => ns.erase n) X := by
  induction fl generalizing X with
  | nil => rfl
  | cons f fl ih => simp only [List.foldl_cons, List.map_cons, ih]

/-! ### Claim theorems -/

/-- C1: every processed file's extension is case-folded and looked up in
the fixed table by first match in declaration order, with the literal
fallback `Other Files`, and the table is bit-exact the specification's
eleven-category table; each successful iteration records exactly that
category as the destination. -/
theorem categorization_matches_spec :
    file_categories = specCategoryTable ∧
    (∀ name, targetFolderOf name = specLookup (pyLower (pySuffix name))) ∧
    (∀ st f st', stepFile st f = .ok st' →
      ∃ nm, st'.file_moves = st.file_moves ++
        [{ file := f.name, fromDir := "Root Directory",
           toCat := targetFolderOf f.name, new_name := nm }]) := by
  refine ⟨rfl, fun name => rfl, fun st f st' h => ⟨stepNewName st f, ?_⟩⟩
  obtain ⟨-, e, -, -, -, -, -, hm⟩ := stepFile_ok_inv h
  exact hm

/-- C9: the `organize_by_type` parameter is accepted but never read; both
the returned string and the final filesystem are identical for any two
values of it. -/
theorem organize_by_type_unused (source_directory : String) (fs : FS)
    (b1 b2 : Bool) :
    file_organizer source_directory b1 fs = file_organizer source_directory b2 fs := rfl

/-- C4: validation runs in fixed order with first failure winning —
missing path, then non-directory, then no regular files — and in each
case the function returns its message with the filesystem unchanged. -/
theorem validation_order_and_purity (d : String) (b : Bool) (fs : FS) :
    (fs.sourceExists = false → file_organizer d b fs = (doesNotExistMsg d, fs)) ∧
    (fs.sourceExists = true → fs.sourceIsDir = false →
      file_organizer d b fs = (notDirectoryMsg d, fs)) ∧
    (fs.sourceExists = true → fs.sourceIsDir = true →
      fs.children.filter (fun e => e.isFile) = [] →
      file_organizer d b fs = (noFilesFoundMsg d, fs)) := by
  refine ⟨?_, ?_, ?_⟩
  · intro h1
    simp [file_organizer, h1]
  · intro h1 h2
    simp [file_organizer, h1, h2]
  · intro h1 h2 h3
    simp [file_organizer, h1, h2, h3]

/-- C3: for every input the function returns a string — one of the three
validation messages, the permission message, a generic error message, or
the success summary; no other outcome exists. -/
theorem always_returns_string (d : String) (b : Bool) (fs : FS) :
    (file_organizer d b fs).1 = doesNotExistMsg d ∨
    (file_organizer d b fs).1 = notDirectoryMsg d ∨
    (file_organizer d b fs).1 = noFilesFoundMsg d ∨
    (file_organizer d b fs).1 = permissionDeniedMsg ∨
    (∃ m, (file_organizer d b fs).1 = genericErrorMsg m) ∨
    (∃ st, runFiles (initState fs) (fs.children.filter (fun e => e.isFile)) = .ok st ∧
      (file_organizer d b fs).1
        = renderSummary d ((fs.children.filter (fun e => e.isFile)).map (fun f => f.name))
            st.created_folders st.file_moves) := by
  by_cases h1 : fs.sourceExists = false
  · exact Or.inl (by simp [file_organizer, h1])
  · by_cases h2 : fs.sourceIsDir = false
    · exact Or.inr (Or.inl (by simp [file_organizer, h1, h2]))
    · by_cases h3 : (fs.children.filter (fun e => e.isFile)).isEmpty
      · exact Or.inr (Or.inr (Or.inl (by simp [file_organizer, h1, h2, h3])))
      · cases hrun : runFiles (initState fs) (fs.children.filter (fun e => e.isFile)) with
        | ok st =>
          exact Or.inr (Or.inr (Or.inr (Or.inr (Or.inr
            ⟨st, rfl, by simp [file_organizer, h1, h2, h3, hrun]⟩))))
        | error e =>
          obtain ⟨exc, st⟩ := e
          cases exc with
          | permissionError =>
            exact Or.inr (Or.inr (Or.inr (Or.inl
              (by simp [file_organizer, h1, h2, h3, hrun]))))
          | otherError m =>
            exact Or.inr (Or.inr (Or.inr (Or.inr (Or.inl
              ⟨m, by simp [file_organizer, h1, h2, h3, hrun]⟩))))

/-- C10: a name with an empty suffix (no dot-suffix, including dotfiles
such as `.bashrc`) falls to `Other Files` — the empty extension is in no
category — and such a file is moved into the `Other Files` folder. -/
theorem empty_suffix_other_files (name : String) (h : pySuffix name = "") :
    targetFolderOf name = "Other Files" ∧
    (∀ p ∈ file_categories, "" ∉ p.2) ∧
    (∀ st f st', f.name = name → stepFile st f = .ok st' →
      ∃ nm, st'.file_moves = st.file_moves ++
          [{ file := f.name, fromDir := "Root Directory",
             toCat := "Other Files", new_name := nm }] ∧
        nm ∈ dirContents st'.children "Other Files") := by
  have htf : targetFolderOf name = "Other Files" := by
    rw [targetFolderOf, h]
    decide
  refine ⟨htf, by decide, ?_⟩
  intro st f st' hn hstep
  obtain ⟨-, e, hfc, hef, hch, -, -, hm⟩ := stepFile_ok_inv hstep
  have hcat : targetFolderOf f.name = "Other Files" := by rw [hn]; exact htf
  rw [hcat] at hfc hch hm
  refine ⟨stepNewName st f, hm, ?_⟩
  rw [hch]
  exact self_mem_dirContents_addToDir (findChild_removeRootFile hfc hef f.name) hef _

/-- C8: the collision loop terminates on every finite directory state —
among the first `occupied.length + 1` numbered candidates one is free, the
bounded unrolling already returns an unoccupied name, and the resolved
target of every move is never an occupied name, so the move step is always
reached. -/
theorem collision_loop_terminates (occupied : List String) (stem ext name : String) :
    (∃ j, 1 ≤ j ∧ j ≤ occupied.length + 1 ∧ candidateName stem ext j ∉ occupied) ∧
    resolveLoop occupied stem ext 1 occupied.length ∉ occupied ∧
    resolveTarget occupied name stem ext ∉ occupied := by
  obtain ⟨j, h1, h2, h3⟩ := exists_free_candidate occupied stem ext 1
  refine ⟨⟨j, h1, by omega, h3⟩, ?_, resolveTarget_not_mem occupied name stem ext⟩
  obtain ⟨j', -, heq, hfree, -⟩ :=
    resolveLoop_spec occupied stem ext occupied.length 1 ⟨j, h1, h2, h3⟩
  rw [heq]
  exact hfree

/-- C2: the destination is `<category>/<original name>`; on collision the
candidates `stem_1ext, stem_2ext, …` are tried and the first free one is
taken (re-checked per candidate), so the move never lands on an occupied
name and the pre-existing files of the folder are preserved — the folder's
listing after the move is its old listing plus the new name. -/
theorem collision_resolution_correct :
    (∀ (occupied : List String) (name stem ext : String),
      ∃ j, resolveTarget occupied name stem ext = moveCandidate name stem ext j ∧
        moveCandidate name stem ext j ∉ occupied ∧
        ∀ k, k < j → moveCandidate name stem ext k ∈ occupied) ∧
    (∀ st f st', stepFile st f = .ok st' →
      stepNewName st f
          ∉ dirContents (mkdirChildren st.children (targetFolderOf f.name))
              (targetFolderOf f.name) ∧
        dirContents st'.children (targetFolderOf f.name)
          = dirContents (mkdirChildren st.children (targetFolderOf f.name))
              (targetFolderOf f.name) ++ [stepNewName st f]) := by
  constructor
  · intro occupied name stem ext
    exact resolveTarget_first_free occupied name stem ext
  · intro st f st' h
    obtain ⟨-, e, hfc, hef, hch, -, -, -⟩ := stepFile_ok_inv h
    refine ⟨resolveTarget_not_mem _ _ _ _, ?_⟩
    rw [hch]
    have hrm : findChild
        (removeRootFile (mkdirChildren st.children (targetFolderOf f.name)) f.name)
        (targetFolderOf f.name) = some e :=
      findChild_removeRootFile hfc hef f.name
    have hadd : findChild
        (addToDir (removeRootFile (mkdirChildren st.children (targetFolderOf f.name)) f.name)
          (targetFolderOf f.name) (stepNewName st f)) (targetFolderOf f.name)
        = some { e with contents := e.contents ++ [stepNewName st f] } := by
      rw [findChild_addToDir_self, hrm]
      rfl
    rw [dirContents_some hadd, if_neg (by simp [hef]), dirContents_some hfc,
        if_neg (by simp [hef])]

/-- C5: a `PermissionError` during the run aborts the remaining files and
yields the permission message; any other exception aborts and yields the
generic message carrying the cause; earlier moves stay moved (no
rollback) and files not yet processed are still in the root. -/
theorem abort_on_exception (d : String) (b : Bool) (fs : FS) (exc : PyExc)
    (st : RunState)
    (hwf : (rootFileNames fs.children).Nodup)
    (hex : fs.sourceExists = true) (hdir : fs.sourceIsDir = true)
    (hrun : runFiles (initState fs) (fs.children.filter (fun e => e.isFile))
      = .error (exc, st)) :
    file_organizer d b fs
      = ((match exc with
          | PyExc.permissionError => permissionDeniedMsg
          | PyExc.otherError m => genericErrorMsg m),
         { fs with children := st.children }) ∧
    ∃ done f rest stb,
      fs.children.filter (fun e => e.isFile) = done ++ f :: rest ∧
      runFiles (initState fs) done = .ok stb ∧
      stepFile stb f = .error (exc, st) ∧
      (∀ r ∈ rest, r.name ∈ rootFileNames st.children) ∧
      (∀ m ∈ st.file_moves, m.new_name ∈ dirContents st.children m.toCat) := by
  have hne : (fs.children.filter (fun e => e.isFile)).isEmpty = false := by
    cases hc : fs.children.filter (fun e => e.isFile) with
    | nil =>
      rw [hc] at hrun
      simp only [runFiles] at hrun
      exact Except.noConfusion hrun
    | cons a l => rfl
  constructor
  · cases exc <;> simp [file_organizer, hex, hdir, hne, hrun]
  · obtain ⟨done, f, rest, stb, hfl, hok, hstep⟩ := runFiles_error_decomp hrun
    refine ⟨done, f, rest, stb, hfl, hok, hstep, ?_, ?_⟩
    · have h1 : rootFileNames st.children = rootFileNames stb.children :=
        stepFile_error_rootFileNames hstep
      have h2 : rootFileNames stb.children
          = done.foldl (fun ns g => ns.erase g.name) (rootFileNames fs.children) :=
        runFiles_ok_rootFileNames hok
      have h3 : rootFileNames fs.children
          = done.map (fun e => e.name) ++ (f :: rest).map (fun e => e.name) := by
        rw [show rootFileNames fs.children
            = (fs.children.filter (fun e => e.isFile)).map (fun e => e.name) from rfl,
          hfl, List.map_append]
      have h4 : rootFileNames st.children = (f :: rest).map (fun e => e.name) := by
        rw [h1, h2, foldl_erase_entries, h3]
        exact foldl_erase_front _ _ (by rw [← List.map_append, ← hfl]; exact hwf)
      intro r hr
      rw [h4]
      exact List.mem_cons_of_mem _ (List.mem_map_of_mem _ hr)
    · have hmp0 : MovesPlaced (initState fs) := by
        intro m hm
        exact absurd hm (List.not_mem_nil m)
      exact runFiles_error_MovesPlaced hrun hmp0

/-- C6: after a successful run no regular file remains directly in the
source directory, so running again immediately moves nothing and returns
the no-files message with the tree unchanged. -/
theorem second_run_no_files (d : String) (b : Bool) (fs : FS) (st : RunState)
    (hwf : (rootFileNames fs.children).Nodup)
    (hex : fs.sourceExists = true) (hdir : fs.sourceIsDir = true)
    (hrun : runFiles (initState fs) (fs.children.filter (fun e => e.isFile)) = .ok st) :
    rootFileNames (file_organizer d b fs).2.children = [] ∧
    file_organizer d b (file_organizer d b fs).2
      = (noFilesFoundMsg d, (file_organizer d b fs).2) := by
  by_cases h3 : (fs.children.filter (fun e => e.isFile)).isEmpty
  · have hf0 : fs.children.filter (fun e => e.isFile) = [] := by
      simpa using h3
    have hfo : file_organizer d b fs = (noFilesFoundMsg d, fs) := by
      simp [file_organizer, hex, hdir, hf0]
    have hroot : rootFileNames fs.children = [] := by
      rw [show rootFileNames fs.children
          = (fs.children.filter (fun e => e.isFile)).map (fun e => e.name) from rfl, hf0]
      rfl
    rw [hfo]
    exact ⟨hroot, by simp [file_organizer, hex, hdir, hf0]⟩
  · have h3f : (fs.children.filter (fun e => e.isFile)).isEmpty = false := by
      simpa using h3
    have hfo : file_organizer d b fs
        = (renderSummary d
             ((fs.children.filter (fun e => e.isFile)).map (fun g => g.name))
             st.created_folders st.file_moves,
           { fs with children := st.children }) := by
      simp [file_organizer, hex, hdir, h3f, hrun]
    have hempty : rootFileNames st.children = [] := by
      rw [runFiles_ok_rootFileNames hrun,
        show rootFileNames (initState fs).children = rootFileNames fs.children from rfl,
        foldl_erase_entries]
      have := foldl_erase_front
        ((fs.children.filter (fun e => e.isFile)).map (fun e => e.name)) []
        (by simpa using hwf)
      simpa using this
    have hfilter : st.children.filter (fun e => e.isFile) = [] := by
      have hm : (st.children.filter (fun e => e.isFile)).map (fun e => e.name) = [] := hempty
      simpa using hm
    rw [hfo]
    constructor
    · exact hempty
    · simp [file_organizer, hex, hdir, hfilter]

/-- Witness for C1: processing one `a.jpg` from the root records a move
into the category the table assigns. -/
theorem categorization_matches_spec_witness :
    ∃ nm,
      ({ children := [{ name := "Images", isFile := false,
                        contents := ["a.jpg"], fault := none }],
         organized_count := 1,
         created_folders := ["Images"],
         file_moves := [{ file := "a.jpg", fromDir := "Root Directory",
                          toCat := "Images", new_name := "a.jpg" }] } : RunState).file_moves
        = ({ children := [{ name := "a.jpg", isFile := true,
                            contents := [], fault := none }],
             organized_count := 0, created_folders := [],
             file_moves := [] } : RunState).file_moves
          ++ [{ file := "a.jpg", fromDir := "Root Directory",
                toCat := targetFolderOf "a.jpg", new_name := nm }] :=
  categorization_matches_spec.2.2
    { children := [{ name := "a.jpg", isFile := true, contents := [], fault := none }],
      organized_count := 0, created_folders := [], file_moves := [] }
    { name := "a.jpg", isFile := true, contents := [], fault := none }
    { children := [{ name := "Images", isFile := false, contents := ["a.jpg"], fault := none }],
      organized_count := 1,
      created_folders := ["Images"],
      file_moves := [{ file := "a.jpg", fromDir := "Root Directory",
                       toCat := "Images", new_name := "a.jpg" }] }
    (by decide)

/-- Witness for C4 at three concrete filesystems, one per validation
failure. -/
theorem validation_order_and_purity_witness :
    file_organizer "d" true { sourceExists := false, sourceIsDir := false, children := [] }
      = (doesNotExistMsg "d",
         { sourceExists := false, sourceIsDir := false, children := [] }) ∧
    file_organizer "d" true { sourceExists := true, sourceIsDir := false, children := [] }
      = (notDirectoryMsg "d",
         { sourceExists := true, sourceIsDir := false, children := [] }) ∧
    file_organizer "d" true
        { sourceExists := true, sourceIsDir := true,
          children := [{ name := "sub", isFile := false, contents := [], fault := none }] }
      = (noFilesFoundMsg "d",
         { sourceExists := true, sourceIsDir := true,
           children := [{ name := "sub", isFile := false, contents := [], fault := none }] }) :=
  ⟨(validation_order_and_purity "d" true _).1 rfl,
   (validation_order_and_purity "d" true _).2.1 rfl rfl,
   (validation_order_and_purity "d" true _).2.2 rfl rfl (by decide)⟩

/-- Witness for C10: the dotfile `.bashrc` has an empty suffix and is
moved into `Other Files`. -/
theorem empty_suffix_other_files_witness :
    targetFolderOf ".bashrc" = "Other Files" ∧
    ∃ nm,
      ({ children := [{ name := "Other Files", isFile := false,
                        contents := [".bashrc"], fault := none }],
         organized_count := 1, created_folders := ["Other Files"],
         file_moves := [{ file := ".bashrc", fromDir := "Root Directory",
                          toCat := "Other Files", new_name := ".bashrc" }] } : RunState).file_moves
        = ([] : List MoveRec)
          ++ [{ file := ".bashrc", fromDir := "Root Directory",
                toCat := "Other Files", new_name := nm }] ∧
      nm ∈ dirContents
        [{ name := "Other Files", isFile := false, contents := [".bashrc"], fault := none }]
        "Other Files" :=
  ⟨(empty_suffix_other_files ".bashrc" (by decide)).1,
   (empty_suffix_other_files ".bashrc" (by decide)).2.2
     { children := [{ name := ".bashrc", isFile := true, contents := [], fault := none }],
       organized_count := 0, created_folders := [], file_moves := [] }
     { name := ".bashrc", isFile := true, contents := [], fault := none }
     { children := [{ name := "Other Files", isFile := false,
                      contents := [".bashrc"], fault := none }],
       organized_count := 1, created_folders := ["Other Files"],
       file_moves := [{ file := ".bashrc", fromDir := "Root Directory",
                        toCat := "Other Files", new_name := ".bashrc" }] }
     rfl (by decide)⟩

/-- Witness for C2: the spec's collision scenario — `Images/` already
holds `x.png`, the root's `x.png` lands as `Images/x_1.png`, the old file
untouched. -/
theorem collision_resolution_correct_witness :
    resolveTarget ["x.png"] "x.png" "x" ".png" = "x_1.png" ∧
    (stepNewName
        { children := [{ name := "Images", isFile := false, contents := ["x.png"], fault := none },
                       { name := "x.png", isFile := true, contents := [], fault := none }],
          organized_count := 0, created_folders := [], file_moves := [] }
        { name := "x.png", isFile := true, contents := [], fault := none }
        ∉ dirContents
            (mkdirChildren
              [{ name := "Images", isFile := false, contents := ["x.png"], fault := none },
               { name := "x.png", isFile := true, contents := [], fault := none }]
              (targetFolderOf ({ name := "x.png", isFile := true,
                                 contents := [], fault := none } : Entry).name))
            (targetFolderOf ({ name := "x.png", isFile := true,
                               contents := [], fault := none } : Entry).name) ∧
      dirContents
          ({ children := [{ name := "Images", isFile := false,
                            contents := ["x.png", "x_1.png"], fault := none }],
             organized_count := 1, created_folders := [],
             file_moves := [{ file := "x.png", fromDir := "Root Directory",
                              toCat := "Images", new_name := "x_1.png" }] } : RunState).children
          (targetFolderOf ({ name := "x.png", isFile := true,
                             contents := [], fault := none } : Entry).name)
        = dirContents
            (mkdirChildren
              [{ name := "Images", isFile := false, contents := ["x.png"], fault := none },
               { name := "x.png", isFile := true, contents := [], fault := none }]
              (targetFolderOf ({ name := "x.png", isFile := true,
                                 contents := [], fault := none } : Entry).name))
            (targetFolderOf ({ name := "x.png", isFile := true,
                               contents := [], fault := none } : Entry).name)
          ++ [stepNewName
                { children := [{ name := "Images", isFile := false,
                                 contents := ["x.png"], fault := none },
                               { name := "x.png", isFile := true, contents := [], fault := none }],
                  organized_count := 0, created_folders := [], file_moves := [] }
                { name := "x.png", isFile := true, contents := [], fault := none }]) :=
  ⟨by decide,
   collision_resolution_correct.2
     { children := [{ name := "Images", isFile := false, contents := ["x.png"], fault := none },
                    { name := "x.png", isFile := true, contents := [], fault := none }],
       organized_count := 0, created_folders := [], file_moves := [] }
     { name := "x.png", isFile := true, contents := [], fault := none }
     { children := [{ name := "Images", isFile := false,
                      contents := ["x.png", "x_1.png"], fault := none }],
       organized_count := 1, created_folders := [],
       file_moves := [{ file := "x.png", fromDir := "Root Directory",
                        toCat := "Images", new_name := "x_1.png" }] }
     (by decide)⟩

/-! ### Contents of the folders created by a run -/

theorem findChild_append_right {l : List Entry} {n : String}
    (h : findChild l n = none) (l2 : List Entry) :
    findChild (l ++ l2) n = findChild l2 n := by
  induction l with
  | nil => rfl
  | cons a as ih =>
    rw [findChild_cons] at h
    by_cases hp : a.name = n
    · rw [if_pos hp] at h
      exact Option.noConfusion h
    · rw [if_neg hp] at h
      rw [List.cons_append, findChild_cons, if_neg hp]
      exact ih h

theorem findChild_eq_none_of_not_exists {l : List Entry} {n : String}
    (h : pathExistsIn l n = false) : findChild l n = none := by
  cases hf : findChild l n with
  | none => rfl
  | some e =>
    rw [pathExistsIn, hf] at h
    exact Bool.noConfusion h

theorem findChild_mkdirChildren {l : List Entry} {c : String} {e : Entry}
    (h : findChild l c = some e) (c2 : String) :
    findChild (mkdirChildren l c2) c = some e := by
  rw [mkdirChildren]
  split
  · exact h
  · exact findChild_append h _

theorem stepFile_ok_CreatedContents {st : RunState} {f : Entry} {st' : RunState}
    (h : stepFile st f = .ok st') (hmp : MovesPlaced st)
    (hcc : CreatedContents st) : CreatedContents st' := by
  obtain ⟨-, e0, hfc, hef, hch, hcr, -, hm⟩ := stepFile_ok_inv h
  intro c hc
  rw [hcr] at hc
  have hcases : c ∈ st.created_folders ∨
      (pathExistsIn st.children (targetFolderOf f.name) = false
        ∧ c = targetFolderOf f.name) := by
    rcases mkdirCreated_cases st.children (targetFolderOf f.name) st.created_folders
      with heq | ⟨hnex, heq⟩
    · rw [heq] at hc
      exact Or.inl hc
    · rw [heq] at hc
      rcases mem_insertNew.mp hc with h1 | rfl
      · exact Or.inl h1
      · exact Or.inr ⟨hnex, rfl⟩
  rw [hch, hm]
  rcases hcases with hold | ⟨hnex, rfl⟩
  · obtain ⟨e, he, hfe, hcont⟩ := hcc c hold
    have he1 : findChild (mkdirChildren st.children (targetFolderOf f.name)) c = some e :=
      findChild_mkdirChildren he _
    have he2 : findChild
        (removeRootFile (mkdirChildren st.children (targetFolderOf f.name)) f.name) c
        = some e := findChild_removeRootFile he1 hfe f.name
    by_cases hcc0 : c = targetFolderOf f.name
    · subst hcc0
      refine ⟨{ e with contents := e.contents ++ [stepNewName st f] }, ?_, hfe, ?_⟩
      · rw [findChild_addToDir_self, he2]
        rfl
      · simp only [List.filter_append, List.map_append, ← hcont]
        simp
    · refine ⟨e, ?_, hfe, ?_⟩
      · rw [findChild_addToDir_ne _ _ hcc0]
        exact he2
      · rw [List.filter_append, List.map_append, ← hcont]
        have : (({ file := f.name, fromDir := "Root Directory",
                   toCat := targetFolderOf f.name,
                   new_name := stepNewName st f } : MoveRec).toCat == c) = false := by
          simp only [beq_eq_false_iff_ne]
          exact fun hx => hcc0 hx.symm
        simp [this]
  · have hnone : findChild st.children (targetFolderOf f.name) = none :=
      findChild_eq_none_of_not_exists hnex
    have hmk : mkdirChildren st.children (targetFolderOf f.name)
        = st.children ++ [{ name := targetFolderOf f.name, isFile := false }] := by
      rw [mkdirChildren, if_neg (by simp [hnex])]
    have hnew : findChild (mkdirChildren st.children (targetFolderOf f.name))
        (targetFolderOf f.name)
        = some { name := targetFolderOf f.name, isFile := false } := by
      rw [hmk, findChild_append_right hnone, findChild_cons, if_pos rfl]
    have he0 : e0 = { name := targetFolderOf f.name, isFile := false } := by
      have := hfc.symm.trans hnew
      exact Option.some.inj this
    have he2 : findChild
        (removeRootFile (mkdirChildren st.children (targetFolderOf f.name)) f.name)
        (targetFolderOf f.name) = some e0 :=
      findChild_removeRootFile hfc hef f.name
    refine ⟨{ e0 with contents := e0.contents ++ [stepNewName st f] }, ?_, hef, ?_⟩
    · rw [findChild_addToDir_self, he2]
      rfl
    · have hfilter0 : st.file_moves.filter
          (fun m => m.toCat == targetFolderOf f.name) = [] := by
        rw [List.filter_eq_nil_iff]
        intro m hmem hbeq
        have hmc : m.toCat = targetFolderOf f.name := by simpa using hbeq
        have := hmp m hmem
        rw [hmc, dirContents_none hnone] at this
        exact absurd this (List.not_mem_nil _)
      rw [List.filter_append, hfilter0, he0]
      simp

theorem runFiles_ok_CreatedContents {fl : List Entry} :
    ∀ {st st' : RunState}, runFiles st fl = .ok st' →
    MovesPlaced st → CreatedContents st → CreatedContents st' := by
  induction fl with
  | nil =>
    intro st st' h hmp hcc
    simp only [runFiles] at h
    have := Except.ok.inj h
    rw [← this]
    exact hcc
  | cons f fl ih =>
    intro st st' h hmp hcc
    cases hs : stepFile st f with
    | error e =>
      simp only [runFiles, hs] at h
      exact Except.noConfusion h
    | ok st1 =>
      simp only [runFiles, hs] at h
      exact ih h (stepFile_ok_MovesPlaced hs hmp)
        (stepFile_ok_CreatedContents hs hmp hcc)

/-! ### The rendered change lines and the sorted folder listing -/

theorem changeLine_renamed_iff (m : MoveRec) :
    (∃ pre, changeLine m = pre ++ " (renamed)\n") ↔ m.file ≠ m.new_name := by
  constructor
  · rintro ⟨pre, hp⟩
    intro heq
    rw [changeLine, if_neg (by simp [heq])] at hp
    have hd := congrArg String.data hp
    simp only [String.data_append] at hd
    have hr := congrArg List.reverse hd
    simp only [List.reverse_append, List.reverse_cons, List.reverse_nil, List.nil_append,
      List.append_assoc, List.cons_append] at hr
    have h2 := (List.cons.inj hr).2
    have h3 := (List.cons.inj h2).1
    exact absurd h3 (by decide)
  · intro hne
    refine ⟨"â€¢ " ++ m.file ++ " â†’ " ++ m.toCat ++ "/" ++ m.new_name, ?_⟩
    rw [changeLine, if_pos hne]

theorem sortStrings_perm (l : List String) : (sortStrings l).Perm l :=
  List.mergeSort_perm l _

theorem sortStrings_sorted (l : List String) :
    List.Pairwise (fun a b : String => a ≤ b) (sortStrings l) := by
  have h := @List.sorted_mergeSort String (fun a b : String => decide (a ≤ b))
    (fun a b c hab hbc => by
      simp only [decide_eq_true_eq] at *
      exact le_trans hab hbc)
    (fun a b => by
      rcases le_total a b with hle | hle
      · simp [hle]
      · simp [hle])
    l
  exact h.imp (fun hab => of_decide_eq_true hab)

/-- C7: on success the summary carries — the count of the before snapshot
with a preview of at most five names and an ellipsis exactly when more
than five existed; one change line per before-file, in order, whose
renamed marker appears exactly when the final name differs; the count of
newly created folders (new in this run, each counted once), listed sorted
by name, where the per-folder count in the rendering
(`folderLine`, filtering the moves by destination) is exactly the
folder's resulting file listing; and an echo of the source path. -/
theorem summary_contents (d : String) (b : Bool) (fs : FS) (st : RunState)
    (hex : fs.sourceExists = true) (hdir : fs.sourceIsDir = true)
    (hrun : runFiles (initState fs) (fs.children.filter (fun e => e.isFile)) = .ok st) :
    (fs.children.filter (fun e => e.isFile) ≠ [] →
      file_organizer d b fs
        = (renderSummary d (rootFileNames fs.children) st.created_folders st.file_moves,
           { fs with children := st.children })) ∧
    st.file_moves.map (fun m => m.file) = rootFileNames fs.children ∧
    (∀ m : MoveRec, (∃ pre, changeLine m = pre ++ " (renamed)\n") ↔ m.file ≠ m.new_name) ∧
    st.created_folders.Nodup ∧
    (∀ c ∈ st.created_folders, ¬IsDirIn fs.children c) ∧
    (∀ c ∈ st.created_folders,
      dirContents st.children c
        = (st.file_moves.filter (fun m => m.toCat == c)).map (fun m => m.new_name)) ∧
    (sortStrings st.created_folders).Perm st.created_folders ∧
    List.Pairwise (fun a b : String => a ≤ b) (sortStrings st.created_folders) ∧
    (∀ (src : String) (bs cr : List String) (mv : List MoveRec), ∃ tail,
      renderSummary src bs cr mv
        = "âœ… File organization complete!\n\n"
          ++ "ğŸ“‹ BEFORE: " ++ toString bs.length ++ " files in root directory\n"
          ++ "Files: " ++ String.intercalate ", " (bs.take 5)
          ++ (if bs.length > 5 then "..." else "") ++ tail) ∧
    (∀ (src : String) (bs cr : List String) (mv : List MoveRec), ∃ front,
      renderSummary src bs cr mv = front ++ "\nğŸ“ Location: " ++ src) := by
  have hmp0 : MovesPlaced (initState fs) := fun m hm => absurd hm (List.not_mem_nil m)
  have hcc0 : CreatedContents (initState fs) := fun c hc => absurd hc (List.not_mem_nil c)
  have hci0 : CreatedInv fs.children (initState fs) :=
    ⟨List.nodup_nil, fun c hc => absurd hc (List.not_mem_nil c), fun c h => h⟩
  have hci := runFiles_ok_CreatedInv hrun hci0
  have hcc := runFiles_ok_CreatedContents hrun hmp0 hcc0
  refine ⟨?_, ?_, changeLine_renamed_iff, hci.1, hci.2.1, ?_,
    sortStrings_perm _, sortStrings_sorted _, ?_, ?_⟩
  · intro hne
    have h3f : (fs.children.filter (fun e => e.isFile)).isEmpty = false := by
      cases hcs : fs.children.filter (fun e => e.isFile) with
      | nil => exact absurd hcs hne
      | cons a l => rfl
    simp [file_organizer, rootFileNames, hex, hdir, h3f, hrun]
  · have hmv := runFiles_ok_moveFiles hrun
    simpa [rootFileNames] using hmv
  · intro c hc
    obtain ⟨e, he, hfe, hcont⟩ := hcc c hc
    rw [dirContents_some he, if_neg (by simp [hfe]), hcont]
  · intro src bs cr mv
    refine ⟨"\n\n" ++ "ğŸ”„ CHANGES MADE:\n" ++ String.join (mv.map changeLine)
      ++ "\nğŸ“‚ AFTER: Created " ++ toString cr.length ++ " folders\n"
      ++ String.join ((sortStrings cr).map (folderLine mv))
      ++ "\nğŸ“ Location: " ++ src, ?_⟩
    simp [renderSummary, String.append_assoc]
  · intro src bs cr mv
    exact ⟨_, rfl⟩

/-- Witness for C5: three files, the second move denied by the operating
system — the first stays moved, the third stays in the root, and the
permission message is returned. -/
theorem abort_on_exception_witness :
    file_organizer "d" true
        { sourceExists := true, sourceIsDir := true,
          children := [{ name := "a.jpg", isFile := true, contents := [], fault := none },
                       { name := "b.pdf", isFile := true, contents := [],
                         fault := some FaultKind.permission },
                       { name := "c.txt", isFile := true, contents := [], fault := none }] }
      = (permissionDeniedMsg,
         { sourceExists := true, sourceIsDir := true,
           children := [{ name := "b.pdf", isFile := true, contents := [],
                          fault := some FaultKind.permission },
                        { name := "c.txt", isFile := true, contents := [], fault := none },
                        { name := "Images", isFile := false, contents := ["a.jpg"], fault := none },
                        { name := "PDF Documents", isFile := false, contents := [],
                          fault := none }] }) :=
  (abort_on_exception "d" true
    { sourceExists := true, sourceIsDir := true,
      children := [{ name := "a.jpg", isFile := true, contents := [], fault := none },
                   { name := "b.pdf", isFile := true, contents := [],
                     fault := some FaultKind.permission },
                   { name := "c.txt", isFile := true, contents := [], fault := none }] }
    PyExc.permissionError
    { children := [{ name := "b.pdf", isFile := true, contents := [],
                     fault := some FaultKind.permission },
                   { name := "c.txt", isFile := true, contents := [], fault := none },
                   { name := "Images", isFile := false, contents := ["a.jpg"], fault := none },
                   { name := "PDF Documents", isFile := false, contents := [], fault := none }],
      organized_count := 1,
      created_folders := ["Images", "PDF Documents"],
      file_moves := [{ file := "a.jpg", fromDir := "Root Directory",
                       toCat := "Images", new_name := "a.jpg" }] }
    (by decide) rfl rfl (by decide)).1

/-- Witness for C6: one `a.jpg`; after the successful run the root holds
no regular file and a second run reports no files found. -/
theorem second_run_no_files_witness :
    rootFileNames (file_organizer "d" true
        { sourceExists := true, sourceIsDir := true,
          children := [{ name := "a.jpg", isFile := true,
                         contents := [], fault := none }] }).2.children = [] ∧
    file_organizer "d" true
        (file_organizer "d" true
          { sourceExists := true, sourceIsDir := true,
            children := [{ name := "a.jpg", isFile := true,
                           contents := [], fault := none }] }).2
      = (noFilesFoundMsg "d",
         (file_organizer "d" true
           { sourceExists := true, sourceIsDir := true,
             children := [{ name := "a.jpg", isFile := true,
                            contents := [], fault := none }] }).2) :=
  second_run_no_files "d" true
    { sourceExists := true, sourceIsDir := true,
      children := [{ name := "a.jpg", isFile := true, contents := [], fault := none }] }
    { children := [{ name := "Images", isFile := false, contents := ["a.jpg"], fault := none }],
      organized_count := 1,
      created_folders := ["Images"],
      file_moves := [{ file := "a.jpg", fromDir := "Root Directory",
                       toCat := "Images", new_name := "a.jpg" }] }
    (by decide) rfl rfl (by decide)

/-- Witness for C7: one `a.jpg`; on success the reply is the rendered
summary of the run's records and the filesystem holds the new folder. -/
theorem summary_contents_witness :
    file_organizer "d" true
        { sourceExists := true, sourceIsDir := true,
          children := [{ name := "a.jpg", isFile := true,
                         contents := [], fault := none }] }
      = (renderSummary "d" ["a.jpg"] ["Images"]
           [{ file := "a.jpg", fromDir := "Root Directory",
              toCat := "Images", new_name := "a.jpg" }],
         { sourceExists := true, sourceIsDir := true,
           children := [{ name := "Images", isFile := false,
                          contents := ["a.jpg"], fault := none }] }) :=
  (summary_contents "d" true
    { sourceExists := true, sourceIsDir := true,
      children := [{ name := "a.jpg", isFile := true, contents := [], fault := none }] }
    { children := [{ name := "Images", isFile := false, contents := ["a.jpg"], fault := none }],
      organized_count := 1,
      created_folders := ["Images"],
      file_moves := [{ file := "a.jpg", fromDir := "Root Directory",
                       toCat := "Images", new_name := "a.jpg" }] }
    rfl rfl (by decide)).1 (by decide)

end FileOrg
